import Mathlib

/-!
Verification of the Graph Normalization, Layout & Rendering Engine of the
graphrag-neo4j repository (`src/graphragdiy/visualization/graph_3d_visualizer.py`).

The engine receives a tabular edge list, cleans it (`_clean_dataframe`),
builds a directed graph from the rows (`_create_knowledge_graph`), truncates
it to a node limit, lays it out, assigns colors and sizes, computes 2D edge
geometry, and writes an HTML artifact (`create_3d_visualization` /
`create_2d_visualization`).  The definitions below shallowly embed those
steps: pandas rows become lists of records, the networkx node dictionary
becomes a first-seen node list, float arithmetic becomes exact rational
arithmetic, and file writing becomes an explicit outcome parameter.
-/

set_option autoImplicit false

namespace GraphViz

/-- A pandas cell value: a string, an integer, or a missing value (NaN/None).
Embeds the value space relevant to the `source`/`target` columns. -/
inductive PValue where
  | vStr (s : String)
  | vInt (n : Int)
  | vNull
  deriving DecidableEq, Repr

/-- `True` exactly when the cell counts as missing for `df.dropna`. -/
def PValue.isNull : PValue → Bool
  | .vNull => true
  | _ => false

/-- `astype(str)` on a non-null pandas cell. -/
def PValue.toStr : PValue → String
  | .vStr s => s
  | .vInt n => toString n
  | .vNull => "nan"

/-- One raw input row of the edge table before cleaning: the `source` and
`target` cells, the `type` cell (`none` = NaN), and the remaining columns as
an attribute list. -/
structure RawRow where
  source : PValue
  target : PValue
  typ : Option String
  attrs : List (String × String)
  deriving DecidableEq, Repr

/-- One row after cleaning: `source` and `target` coerced to strings. -/
structure EdgeRow where
  source : String
  target : String
  typ : Option String
  attrs : List (String × String)
  deriving DecidableEq, Repr

/-- The `(source, target)` key used by `drop_duplicates(subset=['source','target'])`. -/
def EdgeRow.key (r : EdgeRow) : String × String := (r.source, r.target)

/-- `df.dropna(subset=['source','target'])` followed by
`df['source'].astype(str)` and `df['target'].astype(str)`
(`_clean_dataframe`, first two steps). -/
def dropnaCoerce (df : List RawRow) : List EdgeRow :=
  (df.filter (fun r => !r.source.isNull && !r.target.isNull)).map
    (fun r => ⟨r.source.toStr, r.target.toStr, r.typ, r.attrs⟩)

/-- `df.drop_duplicates(subset=['source','target'])` with the pandas default
`keep='first'`: a row is kept exactly when its key has not been seen before. -/
def dropDuplicatesBy : List (String × String) → List EdgeRow → List EdgeRow
  | _, [] => []
  | seen, r :: rs =>
    if r.key ∈ seen then dropDuplicatesBy seen rs
    else r :: dropDuplicatesBy (r.key :: seen) rs

/-- `_clean_dataframe`: drop null endpoints, coerce endpoints to string,
drop duplicate `(source, target)` pairs keeping the first occurrence. -/
def cleanDataframe (df : List RawRow) : List EdgeRow :=
  dropDuplicatesBy [] (dropnaCoerce df)

/-- Append a node to the networkx node dictionary unless already present
(insertion-ordered, as Python dicts are). -/
def addNode (ns : List String) (n : String) : List String :=
  if n ∈ ns then ns else ns ++ [n]

/-- The node list of the `nx.DiGraph` built by `_create_knowledge_graph`:
`G.add_edge(source, target)` inserts the source, then the target, each only
on first sight, so `G.nodes()` iterates in first-seen edge order. -/
def graphNodes (es : List EdgeRow) : List String :=
  es.foldl (fun ns e => addNode (addNode ns e.source) e.target) []

/-- `G.degree()[n]` of the directed graph: out-degree plus in-degree
(a self-loop counts twice). -/
def degree (es : List EdgeRow) (n : String) : Nat :=
  (es.filter (fun e => decide (e.source = n))).length +
    (es.filter (fun e => decide (e.target = n))).length

/-- The degrees of all graph nodes, in node order (`dict(G.degree()).values()`). -/
def degreeList (es : List EdgeRow) : List Nat :=
  (graphNodes es).map (degree es)

/-- `max(degrees.values()) if degrees else 1`. -/
def maxDegree (es : List EdgeRow) : Nat :=
  match degreeList es with
  | [] => 1
  | d :: ds => ds.foldl Nat.max d

/-- `min(degrees.values()) if degrees else 1`. -/
def minDegree (es : List EdgeRow) : Nat :=
  match degreeList es with
  | [] => 1
  | d :: ds => ds.foldl Nat.min d

/-- The induced subgraph `G.subgraph(keep)`: the edges with both endpoints
in the kept node list. -/
def inducedEdges (keep : List String) (es : List EdgeRow) : List EdgeRow :=
  es.filter (fun e => decide (e.source ∈ keep) && decide (e.target ∈ keep))

/-- The truncation step of `create_3d_visualization` / `create_2d_visualization`:
`if G.number_of_nodes() > limit: G = G.subgraph(list(G.nodes())[:limit]).copy()`.
Returns the resulting node list and edge list. -/
def truncateGraph (es : List EdgeRow) (limit : Nat) : List String × List EdgeRow :=
  if limit < (graphNodes es).length then
    let keep := (graphNodes es).take limit
    (keep, inducedEdges keep es)
  else (graphNodes es, es)

/-- Node size in the 2D path:
`size = 15 + 20 * (degree - min_degree) / (max_degree - min_degree + 0.01)`,
in exact rational arithmetic (the float literal `0.01` embedded as `1/100`). -/
def nodeSize2d (deg degMin degMax : Nat) : ℚ :=
  15 + 20 * ((deg : ℚ) - (degMin : ℚ)) / ((degMax : ℚ) - (degMin : ℚ) + 1/100)

/-- Node size in the 3D path (`_create_node_link_trace`):
`size_factor = 8 + 15 * (degree - min_degree) / (max_degree - min_degree + 0.01)`. -/
def nodeSize3d (deg degMin degMax : Nat) : ℚ :=
  8 + 15 * ((deg : ℚ) - (degMin : ℚ)) / ((degMax : ℚ) - (degMin : ℚ) + 1/100)

/-- `palette[i % len(palette)]` (the out-of-range default is never hit on a
non-empty palette). -/
def paletteColor (palette : List String) (i : Nat) : String :=
  palette.getD (i % palette.length) ""

/-- One pass of the color-assignment loop: on each category label, if it has
no color yet, bind it to `palette[len(map) % len(palette)]`.  This is the
shared shape of `edge_type_colors` / `node_type_colors` in
`_create_node_link_trace` and `edge_types` / `node_types` in
`create_2d_visualization`. -/
def assignColorsAux (palette : List String) :
    List (String × String) → List String → List (String × String)
  | m, [] => m
  | m, c :: cs =>
    if c ∈ m.map Prod.fst then assignColorsAux palette m cs
    else assignColorsAux palette (m ++ [(c, paletteColor palette m.length)]) cs

/-- The color map after processing a whole sequence of category labels. -/
def assignColors (palette : List String) (cats : List String) : List (String × String) :=
  assignColorsAux palette [] cats

/-- The distinct labels of a sequence in order of first appearance. -/
def firstSeen (cats : List String) : List String :=
  cats.foldl addNode []

/-- Reference assignment: the element at offset `j` of the list is bound to
palette entry `(i + j) mod P`.  `assignColors` is proved equal to
`specAssign palette 0` applied to the first-seen distinct labels. -/
def specAssign (palette : List String) : Nat → List String → List (String × String)
  | _, [] => []
  | i, c :: cs => (c, paletteColor palette i) :: specAssign palette (i + 1) cs

/-- `str.lower()` on one character (the column names compared are ASCII). -/
def lowerChar (ch : Char) : Char :=
  if 'A' ≤ ch ∧ ch ≤ 'Z' then Char.ofNat (ch.toNat + 32) else ch

/-- `col.lower()` on a column name, as a plain character-list map. -/
def lowerStr (s : String) : String := ⟨s.data.map lowerChar⟩

/-- The alternative relationship-type column names accepted by
`_fetch_graph_data_graphrag` (compared against `col.lower()`). -/
def typeAltCols : List String := ["relationship", "relation", "predicate", "rel_type", "edge_type"]

/-- Which column supplies the `type` of the normalized edge records:
the `type` column if present, else the first column whose lower-cased name is
an accepted alternative (`_fetch_graph_data_graphrag`, the
`if 'type' not in df.columns` block). -/
def resolveTypeColumn (cols : List String) : Option String :=
  if "type" ∈ cols then some "type"
  else cols.find? (fun c => decide (lowerStr c ∈ typeAltCols))

/-- The `type` value a record receives after normalization, given the table's
column names and the row's cells: the resolved column's cell if one resolves,
else the constant default `"关联"` (`df['type'] = '关联'`). -/
def normalizedType (cols : List String) (cell : String → Option String) : Option String :=
  match resolveTypeColumn cols with
  | some c => cell c
  | none => some "关联"

/-- The behaviour of `fig.write_html(output_path, ...)` for one run: it either
succeeds or raises an exception carrying a message. -/
inductive WriteOutcome where
  | ok
  | fail (msg : String)
  deriving DecidableEq, Repr

/-- The user-visible events the pipeline logs/prints on its failure paths. -/
inductive LogEvent where
  | noData
  | emptyAfterClean
  | emptyGraph
  | createFailed (cause : String)
  deriving DecidableEq, Repr

/-- What one visualization run leaves behind: the function's return value
(`None` on every failure path, the output path on success), the artifact
paths successfully written, and the failure events logged. -/
structure RunLog where
  result : Option String
  written : List String
  logged : List LogEvent
  deriving DecidableEq, Repr

/-- The shared control flow of `create_3d_visualization` and
`create_2d_visualization` after the data-source fetch, with the fetched table
`df` and the behaviour `w` of the artifact write as inputs:
`if df.empty: return None`; clean; `if df.empty: return None`; build the
graph; `if G.number_of_nodes() == 0: return None`; truncate to `limit`;
layout and trace construction (pure, in-memory); `fig.write_html(output_path)`
— an exception anywhere in the `try` body is caught by the blanket
`except Exception as e`, which logs the cause and returns `None`. -/
def createVisualization (df : List RawRow) (limit : Nat) (outputPath : String)
    (w : WriteOutcome) : RunLog :=
  if df = [] then ⟨none, [], [.noData]⟩
  else
    let cleaned := cleanDataframe df
    if cleaned = [] then ⟨none, [], [.emptyAfterClean]⟩
    else if (graphNodes cleaned).length = 0 then ⟨none, [], [.emptyGraph]⟩
    else
      let _G := truncateGraph cleaned limit
      match w with
      | .ok => ⟨some outputPath, [outputPath], []⟩
      | .fail msg => ⟨none, [], [.createFailed msg]⟩

/-- An abstract square root on exact rationals, carrying the only two facts
the embedded geometry relies on: `np.sqrt(0.0) == 0.0` exactly, and
`np.sqrt` of a positive argument is positive. -/
structure SqrtFn where
  f : ℚ → ℚ
  sqrt_zero : f 0 = 0
  sqrt_pos : ∀ q : ℚ, 0 < q → 0 < f q

/-- A concrete `SqrtFn` used to instantiate closed statements. -/
def sqrtId : SqrtFn := ⟨fun q => q, rfl, fun _ h => h⟩

/-- The quadratic Bézier point
`B(t) = (1-t)^2 * P0 + 2(1-t)t * P1 + t^2 * P2` sampled over the control
points `(x0,y0)`, `(cx,cy)`, `(x1,y1)` (`create_2d_visualization`). -/
def bezierPoint (t x0 y0 cx cy x1 y1 : ℚ) : ℚ × ℚ :=
  ((1 - t) ^ 2 * x0 + 2 * (1 - t) * t * cx + t ^ 2 * x1,
   (1 - t) ^ 2 * y0 + 2 * (1 - t) * t * cy + t ^ 2 * y1)

/-- The Bézier control point of one 2D edge (`create_2d_visualization`,
`curve_factor = 0.2` embedded as `1/5`): offset the midpoint by the unit
normal of the segment, flipping the normal's sign with the edge parity
(`i % 2 == 0`); when `norm = sqrt(dx*dx + dy*dy)` is not positive, fall back
to the plain midpoint. -/
def controlPoint (s : SqrtFn) (evenParity : Bool) (x0 y0 x1 y1 : ℚ) : ℚ × ℚ :=
  let dx := x1 - x0
  let dy := y1 - y0
  let norm := s.f (dx * dx + dy * dy)
  if 0 < norm then
    let nv : ℚ × ℚ := if evenParity then (-dy / norm, dx / norm) else (dy / norm, -dx / norm)
    ((x0 + x1) / 2 + 1/5 * nv.1, (y0 + y1) / 2 + 1/5 * nv.2)
  else
    ((x0 + x1) / 2, (y0 + y1) / 2)

/-- The arrowhead direction of one 2D edge: the normalized tangent of the
sampled curve at its terminal segment.  `np.linspace(0, 1, 50)` samples at
`t = i/49`; the code takes `bx[-2] - bx[-3]`, i.e. the chord from
`t = 47/49` to `t = 48/49`; when its `norm` is not positive the direction is
`(0, 0)` (`ux, uy = 0, 0`). -/
def arrowDir (s : SqrtFn) (x0 y0 cx cy x1 y1 : ℚ) : ℚ × ℚ :=
  let p := bezierPoint (47/49) x0 y0 cx cy x1 y1
  let q := bezierPoint (48/49) x0 y0 cx cy x1 y1
  let dx := q.1 - p.1
  let dy := q.2 - p.2
  let norm := s.f (dx * dx + dy * dy)
  if 0 < norm then (dx / norm, dy / norm) else (0, 0)

/-! ### Lemmas about duplicate removal -/

lemma mem_of_mem_dropDuplicatesBy {seen : List (String × String)} {l : List EdgeRow}
    {r : EdgeRow} (h : r ∈ dropDuplicatesBy seen l) : r ∈ l := by
  induction l generalizing seen with
  | nil => simp [dropDuplicatesBy] at h
  | cons e l ih =>
    rw [dropDuplicatesBy] at h
    by_cases hk : e.key ∈ seen
    · rw [if_pos hk] at h
      exact List.mem_cons_of_mem _ (ih h)
    · rw [if_neg hk] at h
      rcases List.mem_cons.1 h with h1 | h1
      · exact h1 ▸ List.mem_cons_self _ _
      · exact List.mem_cons_of_mem _ (ih h1)

/-- A row surviving duplicate removal is the *first* row of the input carrying
its `(source, target)` key, with all of that row's attributes. -/
lemma find?_of_mem_dropDuplicatesBy {seen : List (String × String)} {l : List EdgeRow}
    {r : EdgeRow} (h : r ∈ dropDuplicatesBy seen l) :
    r.key ∉ seen ∧ l.find? (fun e => decide (e.key = r.key)) = some r := by
  induction l generalizing seen with
  | nil => simp [dropDuplicatesBy] at h
  | cons e l ih =>
    rw [dropDuplicatesBy] at h
    by_cases hk : e.key ∈ seen
    · rw [if_pos hk] at h
      obtain ⟨h1, h2⟩ := ih h
      have hne : ¬ (e.key = r.key) := fun hc => h1 (hc ▸ hk)
      refine ⟨h1, ?_⟩
      rw [List.find?_cons_of_neg _ (by simpa using hne)]
      exact h2
    · rw [if_neg hk] at h
      rcases List.mem_cons.1 h with h1 | h1
      · subst h1
        exact ⟨hk, List.find?_cons_of_pos _ (by simp)⟩
      · obtain ⟨h1, h2⟩ := ih h1
        have hne : ¬ (e.key = r.key) := fun hc => h1 (by simp [hc])
        refine ⟨fun hc => h1 (List.mem_cons_of_mem _ hc), ?_⟩
        rw [List.find?_cons_of_neg _ (by simpa using hne)]
        exact h2

/-- Duplicate removal leaves pairwise-distinct keys, none of them previously seen. -/
lemma dropDuplicatesBy_keys_nodup (l : List EdgeRow) (seen : List (String × String)) :
    ((dropDuplicatesBy seen l).map EdgeRow.key).Nodup ∧
      ∀ k ∈ (dropDuplicatesBy seen l).map EdgeRow.key, k ∉ seen := by
  induction l generalizing seen with
  | nil => simp [dropDuplicatesBy]
  | cons e l ih =>
    rw [dropDuplicatesBy]
    by_cases hk : e.key ∈ seen
    · rw [if_pos hk]
      exact ih seen
    · rw [if_neg hk]
      obtain ⟨h1, h2⟩ := ih (e.key :: seen)
      refine ⟨?_, ?_⟩
      · simp only [List.map_cons, List.nodup_cons]
        exact ⟨fun hc => (h2 _ hc) (List.mem_cons_self _ _), h1⟩
      · intro k hkmem
        simp only [List.map_cons, List.mem_cons] at hkmem
        rcases hkmem with rfl | hkm
        · exact hk
        · exact fun hc => (h2 _ hkm) (List.mem_cons_of_mem _ hc)

/-- Every input key either was already seen or still occurs among the kept rows. -/
lemma dropDuplicatesBy_covers {l : List EdgeRow} {e : EdgeRow} (he : e ∈ l)
    (seen : List (String × String)) :
    e.key ∈ seen ∨ ∃ r ∈ dropDuplicatesBy seen l, r.key = e.key := by
  induction l generalizing seen with
  | nil => cases he
  | cons a l ih =>
    rw [dropDuplicatesBy]
    by_cases hk : a.key ∈ seen
    · rw [if_pos hk]
      rcases List.mem_cons.1 he with rfl | h1
      · exact Or.inl hk
      · exact ih h1 seen
    · rw [if_neg hk]
      rcases List.mem_cons.1 he with rfl | h1
      · exact Or.inr ⟨e, List.mem_cons_self _ _, rfl⟩
      · rcases ih h1 (a.key :: seen) with h2 | ⟨r, hr, hrk⟩
        · rcases List.mem_cons.1 h2 with h3 | h3
          · exact Or.inr ⟨a, List.mem_cons_self _ _, h3.symm⟩
          · exact Or.inl h3
        · exact Or.inr ⟨r, List.mem_cons_of_mem _ hr, hrk⟩

/-! ### Lemmas about the built graph's node list -/

lemma mem_addNode_iff {ns : List String} {n m : String} :
    n ∈ addNode ns m ↔ n ∈ ns ∨ n = m := by
  unfold addNode
  by_cases h : m ∈ ns
  · rw [if_pos h]
    constructor
    · exact Or.inl
    · rintro (h1 | rfl)
      · exact h1
      · exact h
  · rw [if_neg h]
    simp [List.mem_append]

lemma length_addNode (ns : List String) (m : String) :
    (addNode ns m).length ≤ ns.length + 1 := by
  unfold addNode
  by_cases h : m ∈ ns
  · rw [if_pos h]
    omega
  · rw [if_neg h]
    simp

lemma graphNodes_cons (e : EdgeRow) (l : List EdgeRow) :
    graphNodes (e :: l) =
      l.foldl (fun ns e' => addNode (addNode ns e'.source) e'.target)
        (addNode (addNode [] e.source) e.target) := rfl

/-- Membership in the fold is explained by the seed list or by some edge endpoint. -/
lemma mem_foldl_addNode {l : List EdgeRow} {init : List String} {n : String}
    (h : n ∈ l.foldl (fun ns e => addNode (addNode ns e.source) e.target) init) :
    n ∈ init ∨ ∃ e ∈ l, n = e.source ∨ n = e.target := by
  induction l generalizing init with
  | nil => exact Or.inl h
  | cons e l ih =>
    rw [List.foldl_cons] at h
    rcases ih h with h1 | ⟨a, ha, hh⟩
    · rcases mem_addNode_iff.1 h1 with h2 | h2
      · rcases mem_addNode_iff.1 h2 with h3 | h3
        · exact Or.inl h3
        · exact Or.inr ⟨e, List.mem_cons_self _ _, Or.inl h3⟩
      · exact Or.inr ⟨e, List.mem_cons_self _ _, Or.inr h2⟩
    · exact Or.inr ⟨a, List.mem_cons_of_mem _ ha, hh⟩

/-- The seed list survives the fold. -/
lemma mem_foldl_addNode_of_mem {l : List EdgeRow} {init : List String} {n : String}
    (h : n ∈ init) :
    n ∈ l.foldl (fun ns e => addNode (addNode ns e.source) e.target) init := by
  induction l generalizing init with
  | nil => exact h
  | cons e l ih =>
    rw [List.foldl_cons]
    exact ih (mem_addNode_iff.2 (Or.inl (mem_addNode_iff.2 (Or.inl h))))

lemma mem_graphNodes {es : List EdgeRow} {n : String} (h : n ∈ graphNodes es) :
    ∃ e ∈ es, n = e.source ∨ n = e.target := by
  rcases mem_foldl_addNode h with h1 | h1
  · cases h1
  · exact h1

/-- The fold adds at most two nodes per edge. -/
lemma length_foldl_addNode (l : List EdgeRow) (init : List String) :
    (l.foldl (fun ns e => addNode (addNode ns e.source) e.target) init).length ≤
      init.length + 2 * l.length := by
  induction l generalizing init with
  | nil => simp
  | cons e l ih =>
    rw [List.foldl_cons]
    have h1 := ih (addNode (addNode init e.source) e.target)
    have h2 := length_addNode (addNode init e.source) e.target
    have h3 := length_addNode init e.source
    simp only [List.length_cons]
    omega

/-- A node listed in a non-empty edge list's graph has positive degree. -/
lemma degree_pos_of_endpoint {es : List EdgeRow} {e : EdgeRow} (he : e ∈ es) {n : String}
    (h : n = e.source ∨ n = e.target) : 1 ≤ degree es n := by
  unfold degree
  rcases h with h | h
  · have hm : e ∈ es.filter (fun e' => decide (e'.source = n)) :=
      List.mem_filter.2 ⟨he, by simp [h]⟩
    have := List.length_pos.2 (List.ne_nil_of_mem hm)
    omega
  · have hm : e ∈ es.filter (fun e' => decide (e'.target = n)) :=
      List.mem_filter.2 ⟨he, by simp [h]⟩
    have := List.length_pos.2 (List.ne_nil_of_mem hm)
    omega

/-- A non-empty cleaned edge list yields a non-empty node list. -/
lemma graphNodes_ne_nil {es : List EdgeRow} (h : es ≠ []) : graphNodes es ≠ [] := by
  obtain ⟨e, l, rfl⟩ := List.exists_cons_of_ne_nil h
  have hm : e.source ∈ graphNodes (e :: l) := by
    rw [graphNodes_cons]
    exact mem_foldl_addNode_of_mem
      (mem_addNode_iff.2 (Or.inl (mem_addNode_iff.2 (Or.inr rfl))))
  exact List.ne_nil_of_mem hm

/-! ### Lemmas about degree extrema -/

lemma foldl_max_const {l : List Nat} {d : Nat} (h : ∀ x ∈ l, x = d) :
    l.foldl Nat.max d = d := by
  induction l with
  | nil => rfl
  | cons a l ih =>
    rw [List.foldl_cons, h a (List.mem_cons_self _ _),
      show Nat.max d d = d from Nat.max_self d]
    exact ih fun x hx => h x (List.mem_cons_of_mem _ hx)

lemma foldl_min_const {l : List Nat} {d : Nat} (h : ∀ x ∈ l, x = d) :
    l.foldl Nat.min d = d := by
  induction l with
  | nil => rfl
  | cons a l ih =>
    rw [List.foldl_cons, h a (List.mem_cons_self _ _),
      show Nat.min d d = d from Nat.min_self d]
    exact ih fun x hx => h x (List.mem_cons_of_mem _ hx)

/-- When every node has the same degree, that degree is the maximum. -/
lemma maxDegree_of_const {es : List EdgeRow} {n : String} (h1 : n ∈ graphNodes es)
    (h2 : ∀ m ∈ graphNodes es, degree es m = degree es n) :
    maxDegree es = degree es n := by
  obtain ⟨a, rest, hcons⟩ := List.exists_cons_of_ne_nil (List.ne_nil_of_mem h1)
  have hDL : degreeList es = degree es n :: rest.map (degree es) := by
    rw [degreeList, hcons, List.map_cons, h2 a (hcons ▸ List.mem_cons_self _ _)]
  rw [maxDegree, hDL]
  exact foldl_max_const fun x hx => by
    obtain ⟨m, hm, rfl⟩ := List.mem_map.1 hx
    exact h2 m (hcons ▸ List.mem_cons_of_mem _ hm)

/-- When every node has the same degree, that degree is the minimum. -/
lemma minDegree_of_const {es : List EdgeRow} {n : String} (h1 : n ∈ graphNodes es)
    (h2 : ∀ m ∈ graphNodes es, degree es m = degree es n) :
    minDegree es = degree es n := by
  obtain ⟨a, rest, hcons⟩ := List.exists_cons_of_ne_nil (List.ne_nil_of_mem h1)
  have hDL : degreeList es = degree es n :: rest.map (degree es) := by
    rw [degreeList, hcons, List.map_cons, h2 a (hcons ▸ List.mem_cons_self _ _)]
  rw [minDegree, hDL]
  exact foldl_min_const fun x hx => by
    obtain ⟨m, hm, rfl⟩ := List.mem_map.1 hx
    exact h2 m (hcons ▸ List.mem_cons_of_mem _ hm)

/-! ### Lemmas about color assignment -/

lemma specAssign_keys (palette : List String) (i : Nat) (l : List String) :
    (specAssign palette i l).map Prod.fst = l := by
  induction l generalizing i with
  | nil => rfl
  | cons c cs ih => simp [specAssign, ih]

lemma specAssign_length (palette : List String) (i : Nat) (l : List String) :
    (specAssign palette i l).length = l.length := by
  induction l generalizing i with
  | nil => rfl
  | cons c cs ih => simp [specAssign, ih]

lemma specAssign_append (palette : List String) (i : Nat) (l : List String) (c : String) :
    specAssign palette i (l ++ [c]) =
      specAssign palette i l ++ [(c, paletteColor palette (i + l.length))] := by
  induction l generalizing i with
  | nil => simp [specAssign]
  | cons a l ih =>
    simp only [List.cons_append, specAssign, List.length_cons, List.append_eq]
    rw [ih (i + 1), Nat.add_assoc, Nat.add_comm 1 l.length]

lemma specAssign_get? (palette : List String) :
    ∀ (l : List String) (i j : Nat),
      (specAssign palette i l).get? j =
        (l.get? j).map fun c => (c, paletteColor palette (i + j))
  | [], _, j => by simp [specAssign]
  | c :: cs, i, 0 => by simp [specAssign]
  | c :: cs, i, j + 1 => by
    simp only [specAssign, List.get?_cons_succ]
    rw [specAssign_get? palette cs (i + 1) j, Nat.add_assoc, Nat.add_comm 1 j]

/-- The color-assignment loop, started from the colors of an already-seen
distinct list, extends that assignment along first appearances. -/
lemma assignColorsAux_spec (palette : List String) (cs : List String) :
    ∀ seen : List String,
      assignColorsAux palette (specAssign palette 0 seen) cs =
        specAssign palette 0 (cs.foldl addNode seen) := by
  induction cs with
  | nil => intro seen; rfl
  | cons c cs ih =>
    intro seen
    rw [assignColorsAux, List.foldl_cons]
    by_cases hc : c ∈ seen
    · rw [if_pos (by rw [specAssign_keys]; exact hc)]
      rw [show addNode seen c = seen from if_pos hc]
      exact ih seen
    · rw [if_neg (by rw [specAssign_keys]; exact hc)]
      rw [specAssign_length, show addNode seen c = seen ++ [c] from if_neg hc]
      have happ := specAssign_append palette 0 seen c
      rw [Nat.zero_add] at happ
      rw [← happ]
      exact ih (seen ++ [c])

/-! ### Concrete inputs used by witnesses and counterexamples -/

/-- The spec's scenario input: the first duplicate carries `type:"knows"`. -/
def dfKnowsFirst : List RawRow :=
  [⟨.vStr "A", .vStr "B", some "knows", []⟩, ⟨.vStr "A", .vStr "B", none, []⟩]

/-- The mirrored input: the first duplicate lacks a `type`, a later one has it. -/
def dfKnowsLater : List RawRow :=
  [⟨.vStr "A", .vStr "B", none, []⟩, ⟨.vStr "A", .vStr "B", some "knows", []⟩]

/-- A one-row edge table. -/
def dfAB : List RawRow := [⟨.vStr "A", .vStr "B", some "knows", []⟩]

/-- A one-edge cleaned table. -/
def esAB : List EdgeRow := [⟨"A", "B", some "knows", []⟩]

/-- A cleaned table whose graph has four nodes in first-seen order A, B, C, D. -/
def esABCD : List EdgeRow :=
  [⟨"A", "B", some "knows", []⟩, ⟨"C", "D", some "likes", []⟩, ⟨"A", "D", none, []⟩]

/-! ### Claim theorems -/

/-- C2, counterexample: the clause "when the first occurrence lacks a `type`
and a later duplicate occurrence provides one, the later occurrence's type is
used" fails on the code.  On the input
`[{source:"A",target:"B"}, {source:"A",target:"B",type:"knows"}]`,
`_clean_dataframe` keeps the first occurrence whole — the surviving edge has
no `type`, not `type:"knows"`. -/
theorem c2_counterexample :
    cleanDataframe dfKnowsLater = [⟨"A", "B", none, []⟩] ∧
    (⟨"A", "B", none, []⟩ : EdgeRow).typ ≠ some "knows" := by
  constructor
  · rfl
  · decide

/-- C2, amended: cleaning removes rows with null source/target, coerces
source and target to string, and collapses duplicate `(source, target)` pairs
to exactly one edge keeping the first occurrence's attributes
*unconditionally* — a later duplicate's `type` is never merged into the kept
row.  The kept keys are pairwise distinct, each kept row is the first
occurrence of its key (with all its attributes, including its possibly
missing `type`), every surviving key is represented, and the spec's scenario
`[{source:"A",target:"B",type:"knows"}, {source:"A",target:"B"}]` normalizes
to exactly one edge `A→B` with `type:"knows"`. -/
theorem c2_clean_keeps_first_occurrence (df : List RawRow) :
    ((cleanDataframe df).map EdgeRow.key).Nodup ∧
    (∀ r ∈ cleanDataframe df,
      (dropnaCoerce df).find? (fun e => decide (e.key = r.key)) = some r) ∧
    (∀ e ∈ dropnaCoerce df, ∃ r ∈ cleanDataframe df, r.key = e.key) ∧
    cleanDataframe dfKnowsFirst = [⟨"A", "B", some "knows", []⟩] := by
  refine ⟨(dropDuplicatesBy_keys_nodup _ []).1, ?_, ?_, rfl⟩
  · intro r hr
    exact (find?_of_mem_dropDuplicatesBy hr).2
  · intro e he
    rcases dropDuplicatesBy_covers he [] with h | h
    · cases h
    · exact h

/-- C2, witness: the amended theorem applied to the scenario input, with its
membership hypothesis discharged on the kept row. -/
theorem c2_clean_keeps_first_occurrence_witness :
    (dropnaCoerce dfKnowsFirst).find?
        (fun e => decide (e.key = (⟨"A", "B", some "knows", []⟩ : EdgeRow).key)) =
      some ⟨"A", "B", some "knows", []⟩ :=
  (c2_clean_keeps_first_occurrence dfKnowsFirst).2.1 _ (by decide)

/-- C3: if zero edges remain after cleaning (in particular, for the empty
input table), both visualization entry points return the explicit
empty-result signal `None` — no exception escapes, since the entire body is
inside `try` — and no output artifact is written. -/
theorem c3_empty_clean_returns_empty_signal (df : List RawRow) (limit : Nat)
    (p : String) (w : WriteOutcome) (h : cleanDataframe df = []) :
    (createVisualization df limit p w).result = none ∧
    (createVisualization df limit p w).written = [] := by
  by_cases hdf : df = []
  · simp [createVisualization, hdf]
  · simp [createVisualization, hdf, h]

/-- C3, witness: the empty input table yields the `None` signal and writes
nothing, even though the write itself would have succeeded. -/
theorem c3_empty_clean_returns_empty_signal_witness :
    (createVisualization [] 1000 "knowledge_graph_2d.html" .ok).result = none ∧
    (createVisualization [] 1000 "knowledge_graph_2d.html" .ok).written = [] :=
  c3_empty_clean_returns_empty_signal [] 1000 "knowledge_graph_2d.html" .ok (by rfl)

/-- C4, counterexample: when writing the artifact fails, the run does not
surface an explicit I/O error carrying the path and the cause — the blanket
`except Exception` swallows the exception and the function returns `None`,
the very same value the empty-result run returns, so the caller receives
neither the path nor the cause nor anything distinguishing a write failure
from an empty graph. -/
theorem c4_counterexample :
    (createVisualization dfAB 1000 "out.html" (.fail "disk full")).result = none ∧
    (createVisualization dfAB 1000 "out.html" (.fail "disk full")).result =
      (createVisualization [] 1000 "out.html" .ok).result ∧
    (createVisualization dfAB 1000 "out.html" (.fail "disk full")).written = [] := by
  refine ⟨rfl, rfl, rfl⟩

/-- C4, amended: if writing the output artifact fails, the run is aborted —
the function catches the exception, logs the failure with its underlying
cause, writes no artifact, and returns the generic failure signal `None`
(rather than completing as a success without the artifact); it does not
surface a distinct I/O error value carrying the path to the caller. -/
theorem c4_write_failure_returns_none (df : List RawRow) (limit : Nat) (p : String)
    (msg : String) (h : cleanDataframe df ≠ []) :
    (createVisualization df limit p (.fail msg)).result = none ∧
    (createVisualization df limit p (.fail msg)).written = [] ∧
    (createVisualization df limit p (.fail msg)).logged = [.createFailed msg] := by
  have hdf : df ≠ [] := fun hd => h (by rw [hd]; rfl)
  have hg : (graphNodes (cleanDataframe df)).length ≠ 0 := by
    intro hc
    exact graphNodes_ne_nil h (List.length_eq_zero.1 hc)
  simp [createVisualization, hdf, h, hg]

/-- C4, witness: the amended theorem at a concrete one-row table and a
concrete write failure. -/
theorem c4_write_failure_returns_none_witness :
    (createVisualization dfAB 1000 "out.html" (.fail "disk full")).result = none ∧
    (createVisualization dfAB 1000 "out.html" (.fail "disk full")).written = [] ∧
    (createVisualization dfAB 1000 "out.html" (.fail "disk full")).logged =
      [.createFailed "disk full"] :=
  c4_write_failure_returns_none dfAB 1000 "out.html" "disk full" (by decide)

/-- C5, counterexample: an edge table with no resolvable type column gets the
default relationship type `"关联"`, not `"related"` — the code's default
constant is the Chinese word, and the two strings differ. -/
theorem c5_counterexample :
    normalizedType ["source", "target"] (fun _ => none) = some "关联" ∧
    (some "关联" : Option String) ≠ some "related" := by
  constructor
  · decide
  · decide

/-- C5, amended: after normalization, every edge record whose input row had
no resolvable type column is assigned the default relationship type `"关联"`
(the Chinese word used by the code where the spec writes "related"). -/
theorem c5_default_type_guanlian (cols : List String) (cell : String → Option String)
    (h : resolveTypeColumn cols = none) :
    normalizedType cols cell = some "关联" := by
  unfold normalizedType
  rw [h]

/-- C5, witness: a table with only `source` and `target` columns resolves no
type column, so the default applies. -/
theorem c5_default_type_guanlian_witness :
    normalizedType ["source", "target"] (fun _ => none) = some "关联" :=
  c5_default_type_guanlian ["source", "target"] (fun _ => none) (by decide)

/-- C6, counterexample: in a non-empty graph where all nodes have equal
degree (here the one-edge graph `A→B`, both degrees 1), every node receives
the *base* size — 15 in the 2D path, 8 in the 3D path — which is the bottom
of the visual range (2D sizes are `15 + 20·r`, `r ∈ [0,1)`; 3D sizes are
`8 + 15·r`), not the midpoint of that range (25, resp. 15.5). -/
theorem c6_counterexample :
    graphNodes esAB = ["A", "B"] ∧
    degree esAB "A" = 1 ∧ degree esAB "B" = 1 ∧
    minDegree esAB = 1 ∧ maxDegree esAB = 1 ∧
    nodeSize2d 1 1 1 = 15 ∧ (15 : ℚ) ≠ (15 + 35) / 2 ∧
    nodeSize3d 1 1 1 = 8 ∧ (8 : ℚ) ≠ (8 + 23) / 2 := by
  refine ⟨by decide, by decide, by decide, by decide, by decide, ?_, by norm_num, ?_, by norm_num⟩
  · unfold nodeSize2d
    norm_num
  · unfold nodeSize3d
    norm_num

/-- C6, amended: for every non-empty graph in which all nodes have equal
degree, the size assignment gives every node the minimum (base) visual size —
15 in the 2D path, 8 in the 3D path — and no division by zero occurs: the
`+ 0.01` keeps the denominator at `1/100 ≠ 0`. -/
theorem c6_equal_degrees_base_size (es : List EdgeRow) (n : String)
    (h1 : n ∈ graphNodes es) (h2 : ∀ m ∈ graphNodes es, degree es m = degree es n) :
    nodeSize2d (degree es n) (minDegree es) (maxDegree es) = 15 ∧
    nodeSize3d (degree es n) (minDegree es) (maxDegree es) = 8 ∧
    ((maxDegree es : ℚ) - (minDegree es : ℚ) + 1/100) ≠ 0 := by
  rw [maxDegree_of_const h1 h2, minDegree_of_const h1 h2]
  refine ⟨?_, ?_, ?_⟩
  · unfold nodeSize2d
    norm_num
  · unfold nodeSize3d
    norm_num
  · norm_num

/-- C6, witness: the amended theorem on the one-edge graph, hypotheses
discharged by computation. -/
theorem c6_equal_degrees_base_size_witness :
    nodeSize2d (degree esAB "A") (minDegree esAB) (maxDegree esAB) = 15 ∧
    nodeSize3d (degree esAB "A") (minDegree esAB) (maxDegree esAB) = 8 ∧
    ((maxDegree esAB : ℚ) - (minDegree esAB : ℚ) + 1/100) ≠ 0 :=
  c6_equal_degrees_base_size esAB "A" (by decide) (by decide)

/-- C7: whenever the built graph's node count exceeds the caller-supplied
limit, the returned graph keeps exactly the first `limit` nodes in
first-seen (edge-insertion) order — `list(G.nodes())[:limit]` — and its edge
set is the subgraph induced on that node list. -/
theorem c7_truncation_keeps_first_seen_nodes (es : List EdgeRow) (limit : Nat)
    (h : limit < (graphNodes es).length) :
    (truncateGraph es limit).1 = (graphNodes es).take limit ∧
    (truncateGraph es limit).1.length = limit ∧
    (truncateGraph es limit).2 = inducedEdges ((graphNodes es).take limit) es := by
  unfold truncateGraph
  rw [if_pos h]
  refine ⟨rfl, ?_, rfl⟩
  rw [List.length_take]
  omega

/-- C7, witness: a four-node graph truncated to `limit = 2` keeps exactly
`["A", "B"]`, the first two distinct nodes in edge order, and only the edge
`A→B` survives the induced subgraph. -/
theorem c7_truncation_keeps_first_seen_nodes_witness :
    (truncateGraph esABCD 2).1 = (graphNodes esABCD).take 2 ∧
    (truncateGraph esABCD 2).1.length = 2 ∧
    (truncateGraph esABCD 2).2 = inducedEdges ((graphNodes esABCD).take 2) esABCD :=
  c7_truncation_keeps_first_seen_nodes esABCD 2 (by decide)

/-- C8: the i-th distinct category in order of first appearance is assigned
palette entry `i mod P` (`P` the palette length) — the whole color map equals
the reference assignment over the first-seen distinct labels, the i-th entry
of the map is the i-th distinct category paired with `palette[i % P]`, and
any category sequence with the same first-seen distinct labels gets the very
same colors (so a single-category graph gets exactly `palette[0]`). -/
theorem c8_colors_modulo_palette (palette : List String) (cats : List String) :
    assignColors palette cats = specAssign palette 0 (firstSeen cats) ∧
    (∀ i : Nat, ∀ h : i < (firstSeen cats).length,
      (assignColors palette cats).get? i =
        some ((firstSeen cats).get ⟨i, h⟩, palette.getD (i % palette.length) "")) ∧
    (∀ cats' : List String, firstSeen cats' = firstSeen cats →
      assignColors palette cats' = assignColors palette cats) := by
  have hmain : ∀ l : List String,
      assignColors palette l = specAssign palette 0 (firstSeen l) := by
    intro l
    exact assignColorsAux_spec palette l []
  refine ⟨hmain cats, ?_, ?_⟩
  · intro i h
    rw [hmain cats, specAssign_get? palette (firstSeen cats) 0 i,
      List.get?_eq_get h]
    simp [paletteColor, Nat.zero_add]
  · intro cats' hfs
    rw [hmain cats', hmain cats, hfs]

/-- C8, witness: with a two-color palette and categories first seen in the
order a, b, c, the third distinct category wraps around to palette entry
`2 % 2 = 0`. -/
theorem c8_colors_modulo_palette_witness :
    (assignColors ["red", "green"] ["a", "b", "a", "c"]).get? 2 =
      some ((firstSeen ["a", "b", "a", "c"]).get ⟨2, by decide⟩,
        ["red", "green"].getD (2 % 2) "") :=
  (c8_colors_modulo_palette ["red", "green"] ["a", "b", "a", "c"]).2.1 2 (by decide)

/-- For identical endpoints the squared chord length is zero, so any
square-root function with `f 0 = 0` sends it to zero and the fallback branch
is taken: the control point is the midpoint, i.e. the endpoint itself. -/
lemma controlPoint_degenerate (s : SqrtFn) (evenParity : Bool) (x y : ℚ) :
    controlPoint s evenParity x y x y = (x, y) := by
  have hz : s.f ((x - x) * (x - x) + (y - y) * (y - y)) = 0 := by
    rw [sub_self, sub_self, mul_zero, add_zero, s.sqrt_zero]
  simp only [controlPoint]
  rw [hz, if_neg (lt_irrefl 0)]
  simp only [Prod.mk.injEq]
  constructor <;> ring

/-- A Bézier curve whose three control points coincide is constant. -/
lemma bezierPoint_degenerate (t x y : ℚ) : bezierPoint t x y x y x y = (x, y) := by
  simp only [bezierPoint, Prod.mk.injEq]
  constructor <;> ring

/-- On a constant curve the terminal tangent is the zero vector, so the
arrowhead direction degenerates to `(0, 0)`. -/
lemma arrowDir_degenerate (s : SqrtFn) (x y : ℚ) :
    arrowDir s x y x y x y = (0, 0) := by
  simp [arrowDir, bezierPoint_degenerate, s.sqrt_zero]

/-- C9, counterexample: for a zero-length edge the arrowhead direction is the
zero vector `(0, 0)` (`ux, uy = 0, 0` in the code), whose squared norm is 0,
not 1 — so it is not "a fixed unit vector" as the claim states. -/
theorem c9_counterexample :
    arrowDir sqrtId 0 0 (controlPoint sqrtId true 0 0 0 0).1
        (controlPoint sqrtId true 0 0 0 0).2 0 0 = (0, 0) ∧
    ¬ ((0 : ℚ) * 0 + 0 * 0 = 1) := by
  rw [controlPoint_degenerate]
  exact ⟨arrowDir_degenerate sqrtId 0 0, by norm_num⟩

/-- C9, amended: for every zero-length edge (identical endpoints) in the 2D
rendering path, the quadratic Bézier control point falls back to the segment
midpoint — which is the shared endpoint itself, with zero perpendicular
displacement — and the arrowhead direction defaults to the zero vector
`(0, 0)`, not to a unit vector.  Stated for any square-root function that
sends 0 to 0, as `np.sqrt` does exactly. -/
theorem c9_zero_length_edge_fallback (s : SqrtFn) (evenParity : Bool) (x y : ℚ) :
    controlPoint s evenParity x y x y = ((x + x) / 2, (y + y) / 2) ∧
    controlPoint s evenParity x y x y = (x, y) ∧
    arrowDir s x y (controlPoint s evenParity x y x y).1
      (controlPoint s evenParity x y x y).2 x y = (0, 0) := by
  have hcp := controlPoint_degenerate s evenParity x y
  refine ⟨?_, hcp, ?_⟩
  · rw [hcp]
    simp only [Prod.mk.injEq]
    constructor <;> ring
  · rw [hcp]
    exact arrowDir_degenerate s x y

/-- C9, witness: the amended theorem at the origin with a concrete
square-root function. -/
theorem c9_zero_length_edge_fallback_witness :
    controlPoint sqrtId true 0 0 0 0 = ((0 + 0) / 2, (0 + 0) / 2) ∧
    controlPoint sqrtId true 0 0 0 0 = (0, 0) ∧
    arrowDir sqrtId 0 0 (controlPoint sqrtId true 0 0 0 0).1
      (controlPoint sqrtId true 0 0 0 0).2 0 0 = (0, 0) :=
  c9_zero_length_edge_fallback sqrtId true 0 0

/-- C10: every node of the graph built from a cleaned edge table is an
endpoint of at least one edge — nodes arise only from `G.add_edge(source,
target)` — so every node has degree at least 1 and the node count is at most
twice the edge count. -/
theorem c10_nodes_are_edge_endpoints (es : List EdgeRow) :
    (∀ n ∈ graphNodes es, ∃ e ∈ es, n = e.source ∨ n = e.target) ∧
    (∀ n ∈ graphNodes es, 1 ≤ degree es n) ∧
    (graphNodes es).length ≤ 2 * es.length := by
  refine ⟨fun n hn => mem_graphNodes hn, ?_, ?_⟩
  · intro n hn
    obtain ⟨e, he, hend⟩ := mem_graphNodes hn
    exact degree_pos_of_endpoint he hend
  · have := length_foldl_addNode es []
    simpa using this

/-- C10, witness: the theorem at the three-edge table, its membership
hypotheses discharged on node "D". -/
theorem c10_nodes_are_edge_endpoints_witness :
    (∃ e ∈ esABCD, "D" = e.source ∨ "D" = e.target) ∧
    1 ≤ degree esABCD "D" ∧
    (graphNodes esABCD).length ≤ 2 * esABCD.length :=
  ⟨(c10_nodes_are_edge_endpoints esABCD).1 "D" (by decide),
   (c10_nodes_are_edge_endpoints esABCD).2.1 "D" (by decide),
   (c10_nodes_are_edge_endpoints esABCD).2.2⟩

end GraphViz
